import Mathlib

/-!
# Verification of the Homey-Stellantis OTP / command-dispatch core

Shallow embedding of the crypto/session engine (`Lib/Stellantis/src/otp.ts`),
the command dispatcher (`Lib/Stellantis/src/control.ts`) and the backend token
lifecycle (`Lib/Stellantis/src/client.ts`).  Bytes are `Nat`s below 256, byte
strings are `List Nat`, and machine words are `Nat` reduced modulo `2 ^ 32`
where the source wraps.  Network calls are modelled by passing the (parsed)
server response as an explicit argument; the functions are otherwise direct
translations of the TypeScript.
-/

deriving instance DecidableEq for Except

namespace Stellantis

/-! ## Bytes and 32-bit words -/

/-- Reduce a `Nat` to a 32-bit word, as JS `>>> 0` / `Buffer.writeUInt32BE` do. -/
def m32 (x : Nat) : Nat := x % 4294967296

/-- Big-endian serialization of a 32-bit word into four bytes
(`Buffer.writeUInt32BE`). -/
def u32be (x : Nat) : List Nat :=
  [(x >>> 24) &&& 255, (x >>> 16) &&& 255, (x >>> 8) &&& 255, x &&& 255]

/-- Big-endian serialization of a 64-bit word into eight bytes. -/
def u64be (x : Nat) : List Nat :=
  [(x >>> 56) &&& 255, (x >>> 48) &&& 255, (x >>> 40) &&& 255, (x >>> 32) &&& 255,
   (x >>> 24) &&& 255, (x >>> 16) &&& 255, (x >>> 8) &&& 255, x &&& 255]

/-- Big-endian interpretation of a byte list as a natural number
(`new forge.jsbn.BigInteger(buf.toString('hex'), 16)`). -/
def bytesToNat (l : List Nat) : Nat := l.foldl (fun a b => 256 * a + b) 0

/-- Big-endian byte serialization of `n` into exactly `k` bytes, dropping
overflow beyond `256 ^ k`.  Models `mInt.toString(16)` left-padded with `'0'`
to `2 * k` hex characters and re-parsed by `Buffer.from(_, 'hex')` (the source
only applies this to values below `256 ^ k`). -/
def natToBytesPadded : Nat → Nat → List Nat
  | 0, _ => []
  | k + 1, n => natToBytesPadded k (n / 256) ++ [n % 256]

/-- `buf.readUInt32BE(off)`: the unsigned big-endian 32-bit integer formed
by the four bytes at `off`. -/
def readUInt32BE (l : List Nat) (off : Nat) : Nat :=
  ((l.getD off 0 * 256 + l.getD (off + 1) 0) * 256 + l.getD (off + 2) 0) * 256 +
    l.getD (off + 3) 0

/-- Bit length of a natural number (`BigInteger.bitLength()`), via a fuel
argument so that the kernel can evaluate it (the fuel is the number itself,
each step halves). -/
def bitLenAux : Nat → Nat → Nat
  | 0, _ => 0
  | fuel + 1, n => if n = 0 then 0 else bitLenAux fuel (n / 2) + 1

/-- `BigInteger.bitLength()`. -/
def bitLen (n : Nat) : Nat := bitLenAux n n

/-- Modular exponentiation `b ^ e % n` by repeated squaring
(`BigInteger.modPow`), with an explicit fuel so the kernel can evaluate it. -/
def modPowAux : Nat → Nat → Nat → Nat → Nat
  | 0, _, _, n => 1 % n
  | fuel + 1, b, e, n =>
    if e = 0 then 1 % n
    else
      let h := modPowAux fuel (b * b % n) (e / 2) n
      if e % 2 = 1 then h * b % n else h

/-- `BigInteger.modPow`. -/
def modPow (b e n : Nat) : Nat := modPowAux e b e n

/-- Split a list into consecutive chunks of `k` elements, the final chunk
possibly shorter.  Defined with a fuel (the list length) so that the kernel
can evaluate it. -/
def chunksAux (k : Nat) : Nat → List α → List (List α)
  | 0, _ => []
  | fuel + 1, l => if l.isEmpty then [] else l.take k :: chunksAux k fuel (l.drop k)

/-- Consecutive `k`-element chunks of a list (final chunk may be shorter). -/
def chunks (k : Nat) (l : List α) : List (List α) := chunksAux k l.length l

/-! ## UTF-8 and hex -/

/-- UTF-8 encoding of a single character. -/
def utf8Char (c : Char) : List Nat :=
  let n := c.toNat
  if n < 128 then [n]
  else if n < 2048 then [192 ||| (n >>> 6), 128 ||| (n &&& 63)]
  else if n < 65536 then
    [224 ||| (n >>> 12), 128 ||| ((n >>> 6) &&& 63), 128 ||| (n &&& 63)]
  else
    [240 ||| (n >>> 18), 128 ||| ((n >>> 12) &&& 63), 128 ||| ((n >>> 6) &&& 63),
     128 ||| (n &&& 63)]

/-- UTF-8 encoding of a string (`Buffer.from(s, 'utf-8')`). -/
def utf8 (s : String) : List Nat := (s.data.map utf8Char).flatten

/-- Lower-case hex digit for a value below 16. -/
def hexChar (n : Nat) : Char := if n < 10 then Char.ofNat (48 + n) else Char.ofNat (87 + n)

/-- Lower-case hex rendering of a byte list, as a character list. -/
def hexChars (l : List Nat) : List Char :=
  (l.map fun b => [hexChar (b / 16), hexChar (b % 16)]).flatten

/-- `buf.toString('hex')`. -/
def bytesToHex (l : List Nat) : String := String.mk (hexChars l)

/-- Value of a hex digit character, `none` for a non-hex character. -/
def hexVal (c : Char) : Option Nat :=
  if 48 ≤ c.toNat ∧ c.toNat ≤ 57 then some (c.toNat - 48)
  else if 97 ≤ c.toNat ∧ c.toNat ≤ 102 then some (c.toNat - 87)
  else if 65 ≤ c.toNat ∧ c.toNat ≤ 70 then some (c.toNat - 55)
  else none

/-- `Buffer.from(s, 'hex')`: consume hex digit pairs, stopping at the first
invalid pair or dangling digit. -/
def hexToBytes : List Char → List Nat
  | c1 :: c2 :: rest =>
    match hexVal c1, hexVal c2 with
    | some h, some lo => (16 * h + lo) :: hexToBytes rest
    | _, _ => []
  | _ => []

/-- `new forge.jsbn.BigInteger(s, 16)` on a hex string (big-endian). -/
def parseHexNat (s : String) : Nat :=
  s.data.foldl (fun a c => 16 * a + (hexVal c).getD 0) 0

/-- `parseInt` on a decimal digit string (the protocol only parses digit
strings). -/
def parseNat (s : String) : Nat :=
  s.data.foldl (fun a c => 10 * a + (c.toNat - 48)) 0

/-! ## SHA-256 (FIPS 180-4), as used by `crypto.createHash('sha256')` -/

/-- Right rotation of a 32-bit word. -/
def rotr32 (x n : Nat) : Nat := m32 ((x >>> n) ||| (x <<< (32 - n)))

/-- `Ch(x,y,z)`. -/
def shaCh (x y z : Nat) : Nat := (x &&& y) ^^^ ((x ^^^ 4294967295) &&& z)

/-- `Maj(x,y,z)`. -/
def shaMaj (x y z : Nat) : Nat := (x &&& y) ^^^ (x &&& z) ^^^ (y &&& z)

/-- `Σ₀`. -/
def bsig0 (x : Nat) : Nat := rotr32 x 2 ^^^ rotr32 x 13 ^^^ rotr32 x 22

/-- `Σ₁`. -/
def bsig1 (x : Nat) : Nat := rotr32 x 6 ^^^ rotr32 x 11 ^^^ rotr32 x 25

/-- `σ₀`. -/
def ssig0 (x : Nat) : Nat := rotr32 x 7 ^^^ rotr32 x 18 ^^^ (x >>> 3)

/-- `σ₁`. -/
def ssig1 (x : Nat) : Nat := rotr32 x 17 ^^^ rotr32 x 19 ^^^ (x >>> 10)

/-- The eight-word SHA-256 chaining state. -/
structure Sha8 where
  a : Nat
  b : Nat
  c : Nat
  d : Nat
  e : Nat
  f : Nat
  g : Nat
  h : Nat
deriving DecidableEq, Repr

/-- SHA-256 initial hash values. -/
def shaIV : Sha8 :=
  ⟨1779033703, 3144134277, 1013904242, 2773480762,
   1359893119, 2600822924, 528734635, 1541459225⟩

/-- The 64 SHA-256 round constants. -/
def shaK : List Nat :=
  [1116352408, 1899447441, 3049323471, 3921009573,
   961987163, 1508970993, 2453635748, 2870763221,
   3624381080, 310598401, 607225278, 1426881987,
   1925078388, 2162078206, 2614888103, 3248222580,
   3835390401, 4022224774, 264347078, 604807628,
   770255983, 1249150122, 1555081692, 1996064986,
   2554220882, 2821834349, 2952996808, 3210313671,
   3336571891, 3584528711, 113926993, 338241895,
   666307205, 773529912, 1294757372, 1396182291,
   1695183700, 1986661051, 2177026350, 2456956037,
   2730485921, 2820302411, 3259730800, 3345764771,
   3516065817, 3600352804, 4094571909, 275423344,
   430227734, 506948616, 659060556, 883997877,
   958139571, 1322822218, 1537002063, 1747873779,
   1955562222, 2024104815, 2227730452, 2361852424,
   2428436474, 2756734187, 3204031479, 3329325298]

/-- Group a byte list into big-endian 32-bit words. -/
def bytesToWords : List Nat → List Nat
  | b0 :: b1 :: b2 :: b3 :: rest =>
    ((b0 <<< 24) ||| (b1 <<< 16) ||| (b2 <<< 8) ||| b3) :: bytesToWords rest
  | _ => []

/-- Extend the 16-word message schedule by `fuel` further words. -/
def shaExtend : Nat → List Nat → List Nat
  | 0, w => w
  | fuel + 1, w =>
    let t := w.length
    let x := m32 (ssig1 (w.getD (t - 2) 0) + w.getD (t - 7) 0 +
      ssig0 (w.getD (t - 15) 0) + w.getD (t - 16) 0)
    shaExtend fuel (w ++ [x])

/-- One SHA-256 round: `kw` is the sum of round constant and schedule word. -/
def shaRound (s : Sha8) (kw : Nat) : Sha8 :=
  let t1 := m32 (s.h + bsig1 s.e + shaCh s.e s.f s.g + kw)
  let t2 := m32 (bsig0 s.a + shaMaj s.a s.b s.c)
  ⟨m32 (t1 + t2), s.a, s.b, s.c, m32 (s.d + t1), s.e, s.f, s.g⟩

/-- Compress one 64-byte block into the chaining state. -/
def shaCompress (s : Sha8) (block : List Nat) : Sha8 :=
  let w := shaExtend 48 (bytesToWords block)
  let kw := List.zipWith (fun k wt => m32 (k + wt)) shaK w
  let s' := kw.foldl shaRound s
  ⟨m32 (s.a + s'.a), m32 (s.b + s'.b), m32 (s.c + s'.c), m32 (s.d + s'.d),
   m32 (s.e + s'.e), m32 (s.f + s'.f), m32 (s.g + s'.g), m32 (s.h + s'.h)⟩

/-- SHA-256 padding: append `0x80`, zeros, and the 64-bit big-endian bit
length, to a multiple of 64 bytes. -/
def shaPad (msg : List Nat) : List Nat :=
  let len := msg.length
  let zeros := (56 + 64 - (len + 1) % 64) % 64
  msg ++ 128 :: List.replicate zeros 0 ++ u64be (8 * len)

/-- SHA-256 digest of a byte list: 32 bytes. -/
def sha256 (msg : List Nat) : List Nat :=
  let s := (chunks 64 (shaPad msg)).foldl shaCompress shaIV
  u32be s.a ++ u32be s.b ++ u32be s.c ++ u32be s.d ++
    u32be s.e ++ u32be s.f ++ u32be s.g ++ u32be s.h

/-- `crypto.createHash('sha256').update(s, 'utf-8').digest('hex')`
(`sha256Hash` in the source). -/
def sha256Hash (s : String) : String := bytesToHex (sha256 (utf8 s))

/-! ## OAEP primitives (`otp.ts`) -/

/-- The fixed public exponent: `K_PUB = '11'` (hex), i.e. `EXPONENT = 17`. -/
def EXPONENT : Nat := 17

/-- `mgf1(seed, length)` with SHA-256 (RFC 8017 B.2.1), from the source:
`counter = Math.ceil(length / hLen)` hash blocks, truncated to `length`. -/
def mgf1 (seed : List Nat) (len : Nat) : List Nat :=
  let hLen := 32
  let counter := (len + hLen - 1) / hLen
  (((List.range counter).map fun i => sha256 (seed ++ u32be i)).flatten).take len

/-- `xorBuffers(a, b)`: result has `a`'s length; JS coerces a missing `b[i]`
to `0`. -/
def xorBuffers (a b : List Nat) : List Nat :=
  (List.range a.length).map fun i => (a.getD i 0) ^^^ (b.getD i 0)

/-- `oaepDecrypt(ciphertext, modulus, exponent, label)`: modular exponentiation
with the supplied (public) exponent, then OAEP unpadding.  Translated from the
source; `throw` becomes `Except.error`. -/
def oaepDecrypt (ciphertext : List Nat) (modulus exponent : Nat) (label : List Nat) :
    Except String (List Nat) :=
  let k := (bitLen modulus + 7) / 8
  let hLen := 32
  if ciphertext.length ≠ k then
    .error "Ciphertext with incorrect length"
  else
    let ctInt := bytesToNat ciphertext
    let mInt := modPow ctInt exponent modulus
    let em := natToBytesPadded k mInt
    let _lHash := sha256 label
    let maskedSeed := (em.drop 1).take hLen
    let maskedDb := em.drop (hLen + 1)
    let seedMask := mgf1 maskedDb hLen
    let seed := xorBuffers maskedSeed seedMask
    let dbMask := mgf1 seed (k - hLen - 1)
    let db := xorBuffers maskedDb dbMask
    let dbData := db.drop hLen
    match dbData.findIdx? (fun b => b = 1) with
    | none => .error "Incorrect decryption - no separator found"
    | some onePos => .ok (db.drop (hLen + onePos + 1))

/-- The block loop of `decodeOaep`: for `x` in `[x₀, nbBlock)`, decrypt
`encBuffer.slice(x*128, x = nbBlock-1 ? end : (x+1)*128)` and append the hex
of the plaintext.  Fuel-indexed so the kernel can evaluate it. -/
def decodeOaepGo (encBuffer : List Nat) (modulus exponent nbBlock : Nat) :
    Nat → Nat → Except String String
  | 0, _ => .ok ""
  | fuel + 1, x =>
    if x < nbBlock then
      let mini := x * 128
      let maxi := if x = nbBlock - 1 then encBuffer.length else (x + 1) * 128
      let block := (encBuffer.drop mini).take (maxi - mini)
      match oaepDecrypt block modulus exponent [] with
      | .error e => .error e
      | .ok decrypted =>
        match decodeOaepGo encBuffer modulus exponent nbBlock fuel (x + 1) with
        | .error e => .error e
        | .ok rest => .ok (bytesToHex decrypted ++ rest)
    else .ok ""

/-- `decodeOaep(enc, key)`: hex-decode, split into 128-byte blocks, decrypt
each with `oaepDecrypt` under modulus `key` and exponent 17, concatenate the
hex plaintexts. -/
def decodeOaep (enc key : String) : Except String String :=
  let blockSize := 128
  let encBuffer := hexToBytes enc.data
  let nbBlock := (encBuffer.length + blockSize - 1) / blockSize
  let modulus := parseHexNat key
  decodeOaepGo encBuffer modulus EXPONENT nbBlock nbBlock 0

/-- OAEP message encoding, EME-OAEP (RFC 8017 §7.1.1) with SHA-256 and an
empty label.  Modelled from the spec: `OAEPCipher.encrypt` delegates to
node-forge's `publicKey.encrypt(_, 'RSA-OAEP', sha256)`, which is external
library code; the random seed is made an explicit argument. -/
def oaepEncode (m : List Nat) (k : Nat) (seed : List Nat) : List Nat :=
  let hLen := 32
  let lHash := sha256 []
  let ps := List.replicate (k - m.length - 2 * hLen - 2) 0
  let db := lHash ++ ps ++ [1] ++ m
  let dbMask := mgf1 seed (k - hLen - 1)
  let maskedDb := xorBuffers db dbMask
  let seedMask := mgf1 maskedDb hLen
  let maskedSeed := xorBuffers seed seedMask
  0 :: (maskedSeed ++ maskedDb)

/-- RSA-OAEP encryption with modulus `modulus` and exponent `exponent`.
Modelled from the spec: node-forge's RSA-OAEP encrypt (the forward direction
of the repository's `oaepEncrypt`), with the 32-byte random seed explicit. -/
def oaepEncrypt (m : List Nat) (modulus exponent : Nat) (seed : List Nat) :
    Except String (List Nat) :=
  let k := (bitLen modulus + 7) / 8
  let hLen := 32
  if k < 2 * hLen + 2 then .error "RSA key too small"
  else if m.length > k - 2 * hLen - 2 then .error "RSAES-OAEP input message length is too long"
  else
    let em := oaepEncode m k seed
    let c := modPow (bytesToNat em) exponent modulus
    .ok (natToBytesPadded k c)

/-! ## Base-36 encoding (`numberToBase36`) -/

/-- The source's base-36 alphabet: `a..z` then `0..9` (note: digit value 0 is
`'a'` and digit value 26 is `'0'`). -/
def BASE36_CHARS : List Char :=
  ['a', 'b', 'c', 'd', 'e', 'f', 'g', 'h', 'i', 'j', 'k', 'l', 'm',
   'n', 'o', 'p', 'q', 'r', 's', 't', 'u', 'v', 'w', 'x', 'y', 'z',
   '0', '1', '2', '3', '4', '5', '6', '7', '8', '9']

/-- The `while (num > 0)` digit loop of `numberToBase36`, least-significant
digit first.  Fuel-indexed (the fuel is the starting number). -/
def base36Digits : Nat → Nat → List Char
  | 0, _ => []
  | fuel + 1, num =>
    if num = 0 then []
    else BASE36_CHARS.getD (num % 36) 'a' :: base36Digits fuel (num / 36)

/-- `numberToBase36(n)`. -/
def numberToBase36 (n : Nat) : String :=
  if n = 0 then "0" else String.mk (base36Digits n n)

/-! ## OTP session engine (`otp.ts`)

Network requests are modelled by passing the parsed `ActionSetup` /
`ActionFinalize` XML element as an explicit argument.  JS `null`/`undefined`
string fields are modelled as `""` (which is also JS-falsy, matching every
truthiness test in the source); the `ms_n` field (`string | number`) is a
`Nat` with `0` for absent-or-zero, and the re-challenge flag `J` a `Bool`
for truthiness. -/

/-- `OtpMode` (`activate` / `otp` / `ms`). -/
inductive OtpMode where
  | activate
  | otp
  | ms
deriving DecidableEq, Repr

/-- `OtpResult` (`OK = 0`, `NOK = -1`, `OTP_TWICE = 10`). -/
inductive OtpResult where
  | OK
  | NOK
  | OTP_TWICE
deriving DecidableEq, Repr

/-- The fields of a parsed server XML response used by the engine. -/
structure XmlResponse where
  err : String := ""
  Kiw : String := ""
  Kfact : String := ""
  pinmode : String := ""
  challenge : String := ""
  defi : String := ""
  J : Bool := false
  ms_n : Nat := 0
  ms_key : String := ""
  ms_id : String := ""
  s_id : String := ""
  tsync : String := ""
  id : String := ""
deriving DecidableEq, Repr

/-- Thrown errors: `ConfigException` carrying the raw payload object,
`ConfigException` carrying a message string, and plain `Error`. -/
inductive OtpError where
  | configObj (xml : XmlResponse)
  | configMsg (msg : String)
  | jsError (msg : String)
deriving DecidableEq, Repr

/-- A rendering of a response payload, standing in for `JSON.stringify`
(whose exact text none of the verified properties depend on). -/
def xmlToString (x : XmlResponse) : String :=
  "\x7berr:" ++ x.err ++ ",challenge:" ++ x.challenge ++ ",defi:" ++ x.defi ++ "\x7d"

/-- The `message` property of a thrown error. -/
def OtpError.message : OtpError → String
  | .configObj xml => xmlToString xml
  | .configMsg s => s
  | .jsError s => s

/-- `IWData`: the session-key state (without the back-reference to the
owning engine, which `synchro` never uses). -/
structure IWData where
  iwid : String
  iwTsync : String
  iwK0 : String
  iwK1 : String
  iwsecid : String
  iwsecval : String
  iwsecn : Nat
deriving DecidableEq, Repr

/-- The `IWData` constructor. -/
def IWData.init : IWData :=
  { iwid := "", iwTsync := "0", iwK0 := "", iwK1 := "", iwsecid := "",
    iwsecval := "", iwsecn := 0 }

/-- `IWData.synchro(xml, kma)`: update `iwTsync` / `iwid` from the response
when present (truthy), then seed `iwK0` and `iwK1` from `kma` only when they
are still empty. -/
def IWData.synchro (d : IWData) (xml : XmlResponse) (kma : String) : IWData :=
  let d := if xml.tsync ≠ "" then { d with iwTsync := xml.tsync } else d
  let d := if xml.id ≠ "" then { d with iwid := xml.id } else d
  let d := if d.iwK0 = "" then { d with iwK0 := kma } else d
  if d.iwK1 = "" then { d with iwK1 := kma } else d

/-- The three request-authentication digests `R0`, `R1`, `R2`. -/
structure RValues where
  R0 : String
  R1 : String
  R2 : String
deriving DecidableEq, Repr

/-- The `Otp` engine state.  The `cipher` field models the bound `OAEPCipher`
as the modulus (working key) it was built from; fields `needsync`,
`serviceid`, `alias`, `s_id`, `isMac` and `version` are carried but never
read by the verified operations. -/
structure Otp where
  Kiw : String := ""
  pinmode : String := ""
  Kfact : String := ""
  iwalea : String := ""
  device_id : String := ""
  codepin : String := ""
  challenge : String := ""
  action : String := ""
  version : String := "0.2.11"
  macid : String := ""
  smsCode : String := ""
  mode : OtpMode := .activate
  defi : Nat := 0
  otp_count : Nat := 0
  data : IWData := IWData.init
  cipher : Option String := none
deriving DecidableEq, Repr

/-- The `Otp` constructor: `iwalea` (the per-instance random salt) and the
device id are explicit (the source draws them from `crypto.randomBytes`). -/
def Otp.new (inweboAccessId deviceId alea : String) : Otp :=
  { iwalea := alea, device_id := deviceId, macid := inweboAccessId }

/-- `getSerial()`: `"{device_id}/_/{iwalea}"`. -/
def Otp.getSerial (o : Otp) : String := o.device_id ++ "/_/" ++ o.iwalea

/-- `generateKma(codepin)`: SHA-256 hex of `"{codepin};{serial}"`, truncated
to its first 32 hex characters. -/
def Otp.generateKma (o : Otp) (codepin : String) : String :=
  let serial := o.getSerial
  let kmaStr := codepin ++ ";" ++ serial
  String.mk ((hexChars (sha256 (utf8 kmaStr))).take 32)

/-- `getR()`: the active key is `iwK1` for `action = 'upgrade'`, else `iwK0`;
`R2` appends the PIN only for `action = 'synchro'`. -/
def Otp.getR (o : Otp) : RValues :=
  let iw := if o.action = "upgrade" then o.data.iwK1 else o.data.iwK0
  let R2 := if o.action = "synchro" then o.challenge ++ ";" ++ iw ++ ";" ++ o.codepin
    else o.challenge ++ ";" ++ iw ++ ";"
  let R0 := o.challenge ++ ";" ++ iw ++ ";" ++ o.getSerial
  let R1 := o.challenge ++ ";" ++ iw ++ ";" ++ o.data.iwK1
  { R0 := sha256Hash R0, R1 := sha256Hash R1, R2 := sha256Hash R2 }

/-- `init(Kfact, Kiw, pinmode)`: store the factory key and pin mode, decrypt
the wrapped working key with `decodeOaep`, and bind the OAEP cipher to it. -/
def Otp.init (o : Otp) (Kfact Kiw pinmode : String) : Except OtpError Otp :=
  match decodeOaep Kiw Kfact with
  | .error e => .error (.jsError e)
  | .ok kiwDec =>
    .ok { o with
            Kfact := Kfact
            pinmode := pinmode
            Kiw := kiwDec
            cipher := some kiwDec }

/-- `activationStart()`, with the parsed `ActionSetup` response passed in.
On `err = "OK"`: in `activate` mode run `init` and seed `iwK0`/`iwK1` from
`generateKma(codepin)`; in `otp` mode capture the challenge.  Any other
status throws `ConfigException(xml)`. -/
def Otp.activationStart (o : Otp) (xml : XmlResponse) : Except OtpError (Otp × Bool) :=
  if xml.err = "OK" then
    match o.mode with
    | .activate =>
      match o.init xml.Kfact xml.Kiw xml.pinmode with
      | .error e => .error e
      | .ok o =>
        let kma := o.generateKma o.codepin
        .ok ({ o with data := { o.data with iwK0 := kma, iwK1 := kma } }, true)
    | .otp => .ok ({ o with challenge := xml.challenge }, true)
    | .ms => .ok (o, true)
  else .error (.configObj xml)

/-- `activationFinalize()`, with the parsed `ActionFinalize` response `xml`
and (for the secondary-channel round) the follow-up response `xml2` passed
in.  `aesEnc kmaHex data` stands for node's
`createCipheriv('aes-128-ecb', Buffer.from(kmaHex,'hex')).update(data).toString('hex')`
(external library code), and `randomBytesData` for `crypto.randomBytes(16)`.
The outbound query parameters (the `getR()` digests and, in activate mode,
the OAEP-encrypted `Kma`/PIN) do not affect engine state and are not
returned; the third component of the result records whether the secondary
(`ms`) follow-up request was performed. -/
def Otp.activationFinalize (o : Otp) (aesEnc : String → List Nat → String)
    (randomBytesData : List Nat) (xml : XmlResponse) (xml2 : Option XmlResponse) :
    Except OtpError (Otp × OtpResult × Bool) := do
  let _R := o.getR
  if o.mode = .activate then
    if o.cipher = none ∨ o.codepin = "" then
      throw (.jsError "Cipher or codepin not initialized")
  if xml.err ≠ "OK" then
    return (o, .NOK, false)
  let o := { o with data := o.data.synchro xml (o.generateKma o.codepin) }
  if o.mode = .otp then
    if xml.defi = "" then
      throw (.configMsg "Missing defi in response")
    let o := { o with defi := parseNat xml.defi }
    if xml.J then
      return (o, .OTP_TWICE, false)
    return (o, .OK, false)
  if xml.ms_n = 0 then
    return (o, .OK, false)
  if xml.ms_n > 1 then
    throw (.jsError "Multiple ms_n not implemented")
  let o := { o with
               challenge := xml.challenge
               action := "synchro" }
  let res ← match decodeOaep xml.ms_key o.Kfact with
    | .error e => throw (OtpError.jsError e)
    | .ok r => pure r
  -- `tempCipher.encrypt(randomBytesData)` (node-forge) only feeds the
  -- follow-up request parameters; `res` is the fresh cipher's modulus.
  let _tempCipherModulus := res
  let encodeAesFromHex := aesEnc (o.generateKma o.codepin) randomBytesData
  let o := { o with
               data := { o.data with
                           iwsecval := encodeAesFromHex
                           iwsecid := xml.s_id
                           iwsecn := 1 } }
  match xml2 with
  | none => throw (.jsError "Bad response from server")
  | some x2 =>
    let o := { o with data := o.data.synchro x2 (o.generateKma o.codepin) }
    return (o, .OK, true)

/-- `_getOtpCode()`: SHA-256 of `"{iwK1}:{defi}:{iwsecval}"`, read the first
two big-endian 32-bit words, combine, and encode in the source's base-36. -/
def Otp._getOtpCode (o : Otp) : String :=
  let password := o.data.iwK1 ++ ":" ++ toString o.defi ++ ":" ++ o.data.iwsecval
  let res := sha256 (utf8 password)
  let first4Bytes := readUInt32BE res 0
  let next4Bytes := readUInt32BE res 4
  let nb := (first4Bytes &&& 0xfffffff) * 1024 + (next4Bytes &&& 1023)
  numberToBase36 nb

/-- `getOtpCode()`: drive Setup→Finalize in `otp` mode (repeating once on
`OTP_TWICE`), then extract the code; any thrown error is re-thrown as
`ConfigException('Cannot get otp code: ' + message)`.  The canned responses
for the first Setup/Finalize, the optional secondary round, and the second
Setup/Finalize are explicit arguments. -/
def Otp.getOtpCode (o : Otp) (aesEnc : String → List Nat → String)
    (rnd : List Nat) (setup1 fin1 : XmlResponse) (fin1ms : Option XmlResponse)
    (setup2 fin2 : XmlResponse) : Except OtpError (Otp × Option String) :=
  let o := { o with mode := .otp }
  let attempt : Except OtpError (Otp × Option String) := do
    let (o, started) ← o.activationStart setup1
    if started then
      let (o, res, _) ← o.activationFinalize aesEnc rnd fin1 fin1ms
      if res ≠ .NOK then
        let o ← (if res = .OTP_TWICE then do
            let o := { o with mode := .otp }
            let (o, _) ← o.activationStart setup2
            let (o, secondRes, _) ← o.activationFinalize aesEnc rnd fin2 none
            if secondRes ≠ .OK then
              throw (OtpError.jsError "Second OTP finalization failed")
            pure o
          else pure o)
        let otpCode := o._getOtpCode
        if otpCode = "" then
          throw (.jsError "OTP code is null")
        return (o, some otpCode)
      else
        return (o, none)
    else
      return (o, none)
  match attempt with
  | .error e => .error (.configMsg ("Cannot get otp code: " ++ e.message))
  | .ok r => .ok r

/-! ## Command dispatcher (`control.ts`)

`StellantisVehicleControl` keeps a `responseHandlers` map from correlation id
to pending-response waiter, and a client handle.  The asynchronous behaviour
is embedded as a state machine: the state carries the connection flag, the
correlation ids with a registered waiter, and the log of settled commands;
the events are an incoming broker message (`handleMessage` plus the waiter
body registered by `sendCommand`) and the expiry of a command's 30-second
timer (which only fires while the waiter is registered, since a settling
waiter calls `clearTimeout`). -/

/-- How a pending command settles. -/
inductive CmdOutcome where
  | success
  | commandFault
  | timeoutFault
deriving DecidableEq, Repr

/-- Dispatcher state: connection flag, registered waiters (correlation ids,
in registration order), and the settlement log. -/
structure DispatchState where
  connected : Bool
  pending : List String
  settled : List (String × CmdOutcome)
deriving DecidableEq, Repr

/-- Events observable by the dispatcher: a received message (correlation id
of the body — `""` when the field is absent/falsy — and the body's
`return_code` / `process_code` fields), or the 30-second timer of a command
firing. -/
inductive DispatchEvent where
  | recv (correlationId : String) (returnCode processCode : Option String)
  | expire (correlationId : String)
deriving DecidableEq, Repr

/-- `sendCommand` registers a pending waiter under the freshly generated
correlation id (the publish itself is external). -/
def registerWaiter (s : DispatchState) (correlationId : String) : DispatchState :=
  { s with pending := s.pending ++ [correlationId] }

/-- The command timeout: `30000` ms. -/
def commandTimeoutMs : Nat := 30000

/-- One dispatcher step.  `recv` follows `handleMessage` and the waiter body
in `sendCommand`: a falsy or unknown correlation id does nothing; otherwise
the waiter resolves success iff `return_code === '0' || process_code === '0'`
and is removed.  `expire` follows the `setTimeout` body: remove the waiter
and reject with the timeout failure. -/
def dispatchStep (s : DispatchState) : DispatchEvent → DispatchState
  | .recv correlationId returnCode processCode =>
    if correlationId = "" then s
    else if correlationId ∈ s.pending then
      let outcome := if returnCode = some "0" ∨ processCode = some "0" then
          CmdOutcome.success
        else CmdOutcome.commandFault
      { s with
          pending := s.pending.erase correlationId
          settled := s.settled ++ [(correlationId, outcome)] }
    else s
  | .expire correlationId =>
    if correlationId ∈ s.pending then
      { s with
          pending := s.pending.erase correlationId
          settled := s.settled ++ [(correlationId, .timeoutFault)] }
    else s

/-- `disconnect()`: `if (this.client) { this.client.end(); this.client =
null; }` — the handle is cleared; `responseHandlers` is not touched. -/
def disconnect (s : DispatchState) : DispatchState :=
  if s.connected then { s with connected := false } else s

/-- The settlement-log entries of one correlation id. -/
def settledFor (s : DispatchState) (correlationId : String) : List (String × CmdOutcome) :=
  s.settled.filter fun p => p.1 = correlationId

/-! ## Backend token lifecycle (`client.ts`) -/

/-- A stored per-brand token record. -/
structure TokenData where
  accessToken : String
  refreshToken : String
  expiresIn : Nat
  expiresAt : Int
  lastRefresh : Int
  client_id : String
  client_secret : String
  oauth_url : String
deriving DecidableEq, Repr

/-- The body of a successful refresh-grant response. -/
structure RefreshResponse where
  access_token : String
  refresh_token : Option String
  expires_in : Nat
deriving DecidableEq, Repr

/-- Client state: the brand's stored token record (the settings store) and
the in-memory `accessToken` field. -/
structure ClientState where
  stored : Option TokenData
  accessToken : String
deriving DecidableEq, Repr

/-- `refreshTokens()`: look up the stored record, post the refresh grant
(`resp` is the HTTP outcome), store the rotated record and update the access
token.  The entire body is wrapped in `try/catch` whose handler only logs, so
every failure leaves the state unchanged and the function returns normally. -/
def refreshTokens (s : ClientState) (now : Int) (resp : Except String RefreshResponse) :
    ClientState :=
  match s.stored with
  | none => s
  | some tokens =>
    if tokens.refreshToken = "" then s
    else
      match resp with
      | .error _ => s
      | .ok data =>
        let newTokens := { tokens with
                             accessToken := data.access_token
                             refreshToken := data.refresh_token.getD tokens.refreshToken
                             expiresIn := data.expires_in
                             expiresAt := now + data.expires_in * 1000
                             lastRefresh := now }
        { stored := some newTokens, accessToken := data.access_token }

/-- `checkAndRefreshTokens()`: refresh when `tokens.expiresAt - Date.now() <
5 * 60 * 1000`, then set the in-memory access token from the record read at
entry.  The `await refreshTokens()` is additionally wrapped in `try {} catch
{}`; the function never propagates an error, which the `Except` result type
makes explicit.  The second component reports whether a refresh was
triggered.  (The `updateConfig()` call for a still-empty in-memory token only
re-reads the same store and is not modelled.) -/
def checkAndRefreshTokens (s : ClientState) (now : Int)
    (resp : Except String RefreshResponse) : Except String (ClientState × Bool) :=
  match s.stored with
  | none => .ok (s, false)
  | some tokens =>
    let fiveMinutes : Int := 5 * 60 * 1000
    let needsRefresh := tokens.expiresAt - now < fiveMinutes
    let s' := if needsRefresh then refreshTokens s now resp else s
    .ok ({ s' with accessToken := tokens.accessToken }, needsRefresh)

/-! ## Spec-side definitions

These follow the wording of the specification (not the code); the
functional-correctness claims compare them with the translated source
functions above. -/

/-- The OTP code as worded by the spec: the SHA-256 digest of
`"{K1}:{defi}:{secondaryValue}"`, its first two 32-bit big-endian words
`w0`/`w1`, `n = (w0 & 0x0FFFFFFF) * 1024 + (w1 & 1023)`, encoded in the
engine's lower-case base-36. -/
def otpCodeSpec (K1 : String) (defi : Nat) (secondaryValue : String) : String :=
  let digest := sha256 (utf8 (K1 ++ ":" ++ toString defi ++ ":" ++ secondaryValue))
  let w0 := bytesToNat (digest.take 4)
  let w1 := bytesToNat ((digest.drop 4).take 4)
  numberToBase36 ((w0 &&& 0xfffffff) * 1024 + (w1 &&& 1023))

/-- The seed key as worded by the spec: the SHA-256 hex digest of
`pin ";" deviceId "/_/" salt`, truncated to its first 32 hex characters. -/
def kmaSpec (pin deviceId salt : String) : String :=
  String.mk ((hexChars (sha256 (utf8 (pin ++ ";" ++ deviceId ++ "/_/" ++ salt)))).take 32)

/-- Multi-block OAEP decryption as worded by the spec: split into
consecutive 128-byte blocks (final block may be shorter), decrypt each with
the single-block routine, and concatenate the recovered payloads in block
order. -/
def decodeOaepSpec (enc key : String) : Except String String :=
  let blocks := chunks 128 (hexToBytes enc.data)
  (blocks.mapM fun b => oaepDecrypt b (parseHexNat key) EXPONENT []).map
    fun ds => String.join (ds.map bytesToHex)

/-- A sequence of `synchro` calls with arbitrary payloads and key
arguments. -/
def synchroFold (d : IWData) (cs : List (XmlResponse × String)) : IWData :=
  cs.foldl (fun d c => d.synchro c.1 c.2) d

/-! ## Concrete RSA instance for the OAEP block-cipher claims

A 536-bit prime modulus (so the OAEP block size is `k = 67` bytes, the
smallest admitting a non-empty payload), the fixed public exponent 17, and
`rsaD ≡ 17⁻¹ (mod rsaN − 1)` so that `x ↦ x ^ rsaD` inverts `x ↦ x ^ 17`
modulo `rsaN`. -/

/-- A 536-bit prime modulus. -/
def rsaN : Nat := 214226083964581567639041448252570291074493912407990501445159783413166280613470498665001456705923916634803838174323369281825258770004660505099287450870888117665601

/-- The inverse of 17 modulo `rsaN - 1`. -/
def rsaD : Nat := 25203068701715478545769582147361210714646342636234176640607033342725444778055352784117818435991049015859275079332161091979442208235842412364622053043633896195953

/-- A concrete 32-byte OAEP seed. -/
def rsaSeed : List Nat := List.range 32

/-- A concrete one-byte plaintext. -/
def rsaMsg : List Nat := [171]

/-- A concrete stored token record with `expiresAt = 0` (long expired). -/
def tokEx : TokenData :=
  { accessToken := "stale"
    refreshToken := "r"
    expiresIn := 0
    expiresAt := 0
    lastRefresh := 0
    client_id := "cid"
    client_secret := "sec"
    oauth_url := "u" }

/-- The engine state before the concrete activation scenario (SMS `"1234"`,
PIN `"5678"`). -/
def otpScenario : Otp :=
  { ({} : Otp) with
      codepin := "5678"
      device_id := "dev"
      iwalea := "a1"
      macid := "mac"
      smsCode := "1234" }

/-- The engine state after the scenario's Setup (and, the Finalize being a
plain OK, also after its Finalize). -/
def otpScenarioDone : Otp :=
  { otpScenario with
      pinmode := "1"
      Kfact := "ab"
      cipher := some ""
      data := { IWData.init with
                  iwK0 := "94621a5ce532a0526d920206b9d92ac9"
                  iwK1 := "94621a5ce532a0526d920206b9d92ac9" } }

/-! ## Helper lemmas -/

theorem exceptBind_ok {ε α β : Type} (a : α) (f : α → Except ε β) :
    (Except.ok a >>= f) = f a := rfl

theorem exceptBind_error {ε α β : Type} (er : ε) (f : α → Except ε β) :
    ((Except.error er : Except ε α) >>= f) = .error er := rfl

theorem exceptPure {ε α : Type} (a : α) : (pure a : Except ε α) = .ok a := rfl

theorem exceptThrow {ε α : Type} (e : ε) : (throw e : Except ε α) = .error e := rfl

theorem exceptDotBind_ok {ε α β : Type} (a : α) (f : α → Except ε β) :
    Except.bind (Except.ok a) f = f a := rfl

/-- A single `synchro` call never changes a non-empty `iwK0`. -/
theorem IWData.synchro_iwK0_of_ne (d : IWData) (x : XmlResponse) (k : String)
    (h : d.iwK0 ≠ "") : (d.synchro x k).iwK0 = d.iwK0 := by
  simp only [IWData.synchro]
  split_ifs <;> simp_all

/-- A single `synchro` call never changes a non-empty `iwK1`. -/
theorem IWData.synchro_iwK1_of_ne (d : IWData) (x : XmlResponse) (k : String)
    (h : d.iwK1 ≠ "") : (d.synchro x k).iwK1 = d.iwK1 := by
  simp only [IWData.synchro]
  split_ifs <;> simp_all

/-- A `synchro` call on an empty `iwK0` sets it to the supplied key. -/
theorem IWData.synchro_iwK0_of_empty (d : IWData) (x : XmlResponse) (k : String)
    (h : d.iwK0 = "") : (d.synchro x k).iwK0 = k := by
  simp only [IWData.synchro]
  split_ifs <;> simp_all

/-- A `synchro` call on an empty `iwK1` sets it to the supplied key. -/
theorem IWData.synchro_iwK1_of_empty (d : IWData) (x : XmlResponse) (k : String)
    (h : d.iwK1 = "") : (d.synchro x k).iwK1 = k := by
  simp only [IWData.synchro]
  split_ifs <;> simp_all

/-- Any sequence of `synchro` calls preserves a non-empty `iwK0`. -/
theorem synchroFold_iwK0 (cs : List (XmlResponse × String)) (d : IWData)
    (h : d.iwK0 ≠ "") : (synchroFold d cs).iwK0 = d.iwK0 := by
  induction cs generalizing d with
  | nil => rfl
  | cons c cs ih =>
    have h1 := d.synchro_iwK0_of_ne c.1 c.2 h
    have h2 : (d.synchro c.1 c.2).iwK0 ≠ "" := by rw [h1]; exact h
    calc (synchroFold (d.synchro c.1 c.2) cs).iwK0
        = (d.synchro c.1 c.2).iwK0 := ih _ h2
      _ = d.iwK0 := h1

/-- Any sequence of `synchro` calls preserves a non-empty `iwK1`. -/
theorem synchroFold_iwK1 (cs : List (XmlResponse × String)) (d : IWData)
    (h : d.iwK1 ≠ "") : (synchroFold d cs).iwK1 = d.iwK1 := by
  induction cs generalizing d with
  | nil => rfl
  | cons c cs ih =>
    have h1 := d.synchro_iwK1_of_ne c.1 c.2 h
    have h2 : (d.synchro c.1 c.2).iwK1 ≠ "" := by rw [h1]; exact h
    calc (synchroFold (d.synchro c.1 c.2) cs).iwK1
        = (d.synchro c.1 c.2).iwK1 := ih _ h2
      _ = d.iwK1 := h1

/-! ## C2 — `iwK0`/`iwK1` are idempotent-after-first-set -/

/-- **C2 counterexample** — over truly arbitrary key arguments the claimed
idempotence-after-first-set fails: `synchro` guards only on emptiness
(JS falsiness), so a first call whose key argument is the empty string
finds `iwK0` empty and sets it — to the empty string — and a subsequent
call then changes `iwK0` again: the key is set more than once. -/
theorem synchro_empty_key_not_set_once :
    IWData.init.iwK0 = "" ∧
    (IWData.init.synchro {} "").iwK0 = "" ∧
    ((IWData.init.synchro {} "").synchro {} "k2").iwK0 = "k2" ∧
    ("" : String) ≠ "k2" := by
  decide

/-- **C2 amended** — across arbitrary synchronization calls (any payloads,
any key arguments), a *non-empty* `iwK0` / `iwK1` is never overwritten; a
call finding the key empty sets it to the supplied key argument; and once a
call has run with a non-empty key argument — as every in-protocol call
does, the argument being the 32-hex-character `generateKma(..)` — every
later call leaves both keys unchanged.  (Only when the key argument itself
is empty does the key stay empty and remain settable, which is what the
counterexample exhibits.) -/
theorem synchro_set_once (d : IWData) (xml : XmlResponse) (kma : String)
    (cs : List (XmlResponse × String)) :
    (d.iwK0 ≠ "" → (synchroFold d cs).iwK0 = d.iwK0) ∧
    (d.iwK1 ≠ "" → (synchroFold d cs).iwK1 = d.iwK1) ∧
    (d.iwK0 = "" → (d.synchro xml kma).iwK0 = kma) ∧
    (d.iwK1 = "" → (d.synchro xml kma).iwK1 = kma) ∧
    (kma ≠ "" →
      (synchroFold (d.synchro xml kma) cs).iwK0 = (d.synchro xml kma).iwK0 ∧
      (synchroFold (d.synchro xml kma) cs).iwK1 = (d.synchro xml kma).iwK1) := by
  refine ⟨fun h => synchroFold_iwK0 cs d h, fun h => synchroFold_iwK1 cs d h,
    fun h => d.synchro_iwK0_of_empty xml kma h,
    fun h => d.synchro_iwK1_of_empty xml kma h, fun hk => ⟨?_, ?_⟩⟩
  · refine synchroFold_iwK0 cs _ ?_
    by_cases h : d.iwK0 = ""
    · rw [d.synchro_iwK0_of_empty xml kma h]; exact hk
    · rw [d.synchro_iwK0_of_ne xml kma h]; exact h
  · refine synchroFold_iwK1 cs _ ?_
    by_cases h : d.iwK1 = ""
    · rw [d.synchro_iwK1_of_empty xml kma h]; exact hk
    · rw [d.synchro_iwK1_of_ne xml kma h]; exact h

/-- Witness for C2 at a concrete state and call sequence. -/
theorem synchro_set_once_witness :
    ((IWData.init.synchro {} "k1").iwK0 = "k1") ∧
    ((synchroFold (IWData.init.synchro {} "k1") [({}, "z1"), ({}, "z2")]).iwK0 =
      (IWData.init.synchro {} "k1").iwK0) :=
  ⟨(synchro_set_once IWData.init {} "k1" [({}, "z1"), ({}, "z2")]).2.2.1 rfl,
   ((synchro_set_once IWData.init {} "k1" [({}, "z1"), ({}, "z2")]).2.2.2.2
     (by decide)).1⟩

/-! ## C9 — `disconnect` -/

/-- **C9 counterexample** — `disconnect` on a state with one pending waiter
clears the client handle but leaves the pending-waiter map non-empty,
contradicting "rejects and clears every pending correlation-id waiter ...
leaving the pending-waiter map empty". -/
theorem disconnect_leaves_waiters :
    disconnect { connected := true, pending := ["c1"], settled := [] } =
      { connected := false, pending := ["c1"], settled := [] } ∧
    ({ connected := false, pending := ["c1"], settled := [] } :
      DispatchState).pending ≠ [] := by
  constructor
  · rfl
  · decide

/-- **C9 amended** — `disconnect()` is idempotent and clears the client
handle, but it leaves the pending-waiter map (and the settlement log)
untouched; pending commands are settled only later, by their own 30-second
timers. -/
theorem disconnect_idempotent (s : DispatchState) :
    disconnect (disconnect s) = disconnect s ∧
    (disconnect s).pending = s.pending ∧
    (disconnect s).settled = s.settled ∧
    (disconnect s).connected = false := by
  rcases s with ⟨c, p, st⟩
  cases c <;> simp [disconnect]

/-! ## C10 — token refresh -/

/-- **C10 counterexample** — with a stored record expired long ago and a
failing refresh grant, `checkAndRefreshTokens` completes normally (no error
reaches the caller: the result is `.ok`, never `.error`), refuting "the
error is surfaced to the caller"; the stale stored record is retained. -/
theorem tokenRefresh_error_swallowed :
    checkAndRefreshTokens { stored := some tokEx, accessToken := "old" } 1000000
      (.error "HTTP 500") =
    .ok ({ stored := some tokEx, accessToken := "stale" }, true) := by decide

/-- A failing refresh grant leaves the client state unchanged (the `catch`
only logs). -/
theorem refreshTokens_error (s : ClientState) (now : Int) (msg : String) :
    refreshTokens s now (.error msg) = s := by
  rcases s with ⟨st, a⟩
  cases st
  · rfl
  · simp only [refreshTokens]
    split <;> rfl

/-- **C10 amended** — a refresh grant is attempted exactly when
`expiresAt - now < 5 min`; when the grant fails the stored stale record is
retained unchanged and the in-memory token is re-set from it; the error is
logged and swallowed, never surfaced (the result is always `.ok`). -/
theorem tokenRefresh_spec (tok : TokenData) (acc : String) (now : Int)
    (resp : Except String RefreshResponse) :
    (checkAndRefreshTokens ⟨some tok, acc⟩ now resp).isOk = true ∧
    (∀ s' b, checkAndRefreshTokens ⟨some tok, acc⟩ now resp = .ok (s', b) →
      ((b = true ↔ tok.expiresAt - now < 5 * 60 * 1000) ∧
       (∀ msg, resp = .error msg →
         s'.stored = some tok ∧ s'.accessToken = tok.accessToken))) := by
  constructor
  · simp [checkAndRefreshTokens, Except.isOk, Except.toBool]
  · intro s' b h
    simp only [checkAndRefreshTokens, Except.ok.injEq, Prod.mk.injEq] at h
    obtain ⟨hs, hb⟩ := h
    subst hs hb
    constructor
    · simp
    · intro msg hresp
      subst hresp
      rw [refreshTokens_error, ite_self]
      simp

/-- Witness for C10 at a concrete expired record and failing grant. -/
theorem tokenRefresh_spec_witness :
    ((true = true ↔ tokEx.expiresAt - 1000000 < 5 * 60 * 1000) ∧
      (∀ msg, (Except.error "HTTP 500" : Except String RefreshResponse) = .error msg →
        ({ stored := some tokEx, accessToken := "stale" } : ClientState).stored = some tokEx ∧
        ({ stored := some tokEx, accessToken := "stale" } : ClientState).accessToken =
          tokEx.accessToken)) :=
  (tokenRefresh_spec tokEx "old" 1000000 (.error "HTTP 500")).2
    { stored := some tokEx, accessToken := "stale" } true (by decide)

/-! ## C4 — correlation-id dispatch -/

/-- **C4** — a received message with a matching pending correlation id
settles that command: success iff its status code is zero, command failure
otherwise, and the waiter is removed; the 30-second timer expiry removes the
waiter and settles with the timeout failure, which is distinct from the
command failure; a message whose correlation id is absent or matches no
pending waiter changes nothing; a response arriving after its command timed
out is a no-op; other pending commands are never touched; `sendCommand`
registers the waiter under its fresh correlation id. -/
theorem dispatcher_correlation (s : DispatchState) (c : String) (ret proc : Option String) :
    (c ≠ "" → c ∈ s.pending → (ret = some "0" ∨ proc = some "0") →
      dispatchStep s (.recv c ret proc) =
        ⟨s.connected, s.pending.erase c, s.settled ++ [(c, .success)]⟩) ∧
    (c ≠ "" → c ∈ s.pending → ¬(ret = some "0" ∨ proc = some "0") →
      dispatchStep s (.recv c ret proc) =
        ⟨s.connected, s.pending.erase c, s.settled ++ [(c, .commandFault)]⟩) ∧
    (c ∈ s.pending →
      dispatchStep s (.expire c) =
        ⟨s.connected, s.pending.erase c, s.settled ++ [(c, .timeoutFault)]⟩) ∧
    (c ∉ s.pending → dispatchStep s (.recv c ret proc) = s) ∧
    (s.pending.Nodup →
      dispatchStep (dispatchStep s (.expire c)) (.recv c ret proc) =
        dispatchStep s (.expire c)) ∧
    (CmdOutcome.timeoutFault ≠ CmdOutcome.commandFault ∧ commandTimeoutMs = 30000) ∧
    (∀ c2, c2 ∈ s.pending → c2 ≠ c →
      c2 ∈ (dispatchStep s (.recv c ret proc)).pending ∧
      settledFor (dispatchStep s (.recv c ret proc)) c2 = settledFor s c2) ∧
    (registerWaiter s c).pending = s.pending ++ [c] := by
  refine ⟨?_, ?_, ?_, ?_, ?_, ⟨by decide, rfl⟩, ?_, rfl⟩
  · intro hc hmem hz
    simp [dispatchStep, hc, hmem, hz]
  · intro hc hmem hz
    simp [dispatchStep, hc, hmem, hz]
  · intro hmem
    simp [dispatchStep, hmem]
  · intro hmem
    by_cases hc : c = "" <;> simp [dispatchStep, hc, hmem]
  · intro hnd
    by_cases hmem : c ∈ s.pending
    · by_cases hc : c = ""
      · simp [dispatchStep, hc]
      · have hne : c ∉ (dispatchStep s (.expire c)).pending := by
          simp only [dispatchStep, if_pos hmem]
          exact hnd.not_mem_erase
        set s1 := dispatchStep s (.expire c) with hs1
        show dispatchStep s1 (.recv c ret proc) = s1
        simp [dispatchStep, hc, hne]
    · have h1 : dispatchStep s (.expire c) = s := by simp [dispatchStep, hmem]
      rw [h1]
      by_cases hc : c = "" <;> simp [dispatchStep, hc, hmem]
  · intro c2 h2 hne
    by_cases hc : c = ""
    · simp [dispatchStep, hc, h2]
    · by_cases hmem : c ∈ s.pending
      · constructor
        · simp only [dispatchStep, if_neg hc, if_pos hmem]
          exact (List.mem_erase_of_ne hne).2 h2
        · simp only [dispatchStep, if_neg hc, if_pos hmem, settledFor,
            List.filter_append]
          simp [Ne.symm hne]
      · simp [dispatchStep, hc, hmem, h2]

/-- Witness for C4 at a concrete two-command state. -/
theorem dispatcher_correlation_witness :
    dispatchStep ⟨true, ["a", "b"], []⟩ (.recv "a" (some "0") none) =
      ⟨true, (["a", "b"] : List String).erase "a", [("a", CmdOutcome.success)]⟩ ∧
    dispatchStep ⟨true, ["a", "b"], []⟩ (.expire "a") =
      ⟨true, (["a", "b"] : List String).erase "a", [("a", CmdOutcome.timeoutFault)]⟩ :=
  ⟨(dispatcher_correlation ⟨true, ["a", "b"], []⟩ "a" (some "0") none).1
      (by decide) (by decide) (Or.inl rfl),
   (dispatcher_correlation ⟨true, ["a", "b"], []⟩ "a" (some "0") none).2.2.1
      (by decide)⟩

/-! ## C8 — base-36 encoding -/

/-- The digit loop agrees with `Nat.digits 36` mapped through the source's
alphabet, for sufficient fuel. -/
theorem base36Digits_eq_digits (fuel : Nat) :
    ∀ n ≤ fuel, base36Digits fuel n =
      (Nat.digits 36 n).map fun d => BASE36_CHARS.getD d 'a' := by
  induction fuel with
  | zero =>
    intro n hn
    have h0 : n = 0 := Nat.le_zero.mp hn
    subst h0
    simp [base36Digits]
  | succ fuel ih =>
    intro n hn
    by_cases h0 : n = 0
    · subst h0
      simp [base36Digits]
    · rw [base36Digits, if_neg h0,
        Nat.digits_def' (by norm_num : (1 : Nat) < 36) (Nat.pos_of_ne_zero h0),
        List.map_cons]
      congr 1
      refine ih (n / 36) ?_
      have := Nat.div_lt_self (Nat.pos_of_ne_zero h0) (by norm_num : (1 : Nat) < 36)
      omega

/-- The source's 36-character alphabet is injective. -/
theorem base36_char_inj :
    ∀ a < 36, ∀ b < 36, BASE36_CHARS.getD a 'a' = BASE36_CHARS.getD b 'a' → a = b := by
  decide

/-- Mapping an injective digit renderer over digit lists is injective. -/
theorem map_inj_on_digits (f : Nat → Char) (l1 : List Nat)
    (hinj : ∀ a < 36, ∀ b < 36, f a = f b → a = b) :
    ∀ l2 : List Nat, (∀ x ∈ l1, x < 36) → (∀ x ∈ l2, x < 36) →
      l1.map f = l2.map f → l1 = l2 := by
  induction l1 with
  | nil =>
    intro l2 _ _ h
    cases l2 with
    | nil => rfl
    | cons b t => simp at h
  | cons a t ih =>
    intro l2 h1 h2 h
    cases l2 with
    | nil => simp at h
    | cons b t2 =>
      simp only [List.map_cons, List.cons.injEq] at h
      obtain ⟨hab, ht⟩ := h
      have hb := hinj a (h1 a (by simp)) b (h2 b (by simp)) hab
      subst hb
      rw [ih t2 (fun x hx => h1 x (by simp [hx])) (fun x hx => h2 x (by simp [hx])) ht]

/-- **C8 counterexample** — the encoder maps both `0` and `26` to `"0"`
(digit value 26 renders as the character `'0'`), so it is not injective on
`[0, 2^32)` and no decoder can recover `n` from its encoding there. -/
theorem base36_zero_collision :
    numberToBase36 0 = "0" ∧ numberToBase36 26 = "0" ∧ (0 : Nat) ≠ 26 := by
  refine ⟨rfl, ?_, by decide⟩
  decide

/-- **C8 amended** — the encoder maps `0` to `"0"` and is injective on the
positive range `[1, 2^32)` (indeed on all positive integers), so a decoder
exists there; injectivity fails only at `0`, which collides with `26`. -/
theorem base36_injective_on_positives :
    numberToBase36 0 = "0" ∧
    ∀ m n : Nat, 0 < m → m < 2 ^ 32 → 0 < n → n < 2 ^ 32 →
      numberToBase36 m = numberToBase36 n → m = n := by
  refine ⟨rfl, fun m n hm _ hn _ h => ?_⟩
  rw [numberToBase36, numberToBase36, if_neg (Nat.pos_iff_ne_zero.mp hm),
    if_neg (Nat.pos_iff_ne_zero.mp hn)] at h
  have h' : base36Digits m m = base36Digits n n := by
    have := congrArg String.data h
    simpa using this
  rw [base36Digits_eq_digits m m le_rfl, base36Digits_eq_digits n n le_rfl] at h'
  have hd := map_inj_on_digits _ _ base36_char_inj _
    (fun x hx => Nat.digits_lt_base (by norm_num) hx)
    (fun x hx => Nat.digits_lt_base (by norm_num) hx) h'
  calc m = Nat.ofDigits 36 (Nat.digits 36 m) := (Nat.ofDigits_digits 36 m).symm
    _ = Nat.ofDigits 36 (Nat.digits 36 n) := by rw [hd]
    _ = n := Nat.ofDigits_digits 36 n

/-- Witness for C8 at concrete positive inputs. -/
theorem base36_injective_witness :
    numberToBase36 0 = "0" ∧ (7 : Nat) = 7 :=
  ⟨base36_injective_on_positives.1,
   base36_injective_on_positives.2 7 7 (by decide) (by decide) (by decide) (by decide) rfl⟩

/-! ## C6 — OTP issuance failure handling -/

/-- `activationStart` in `otp` mode on an `OK` response captures the
challenge and reports success. -/
theorem activationStart_otp (o : Otp) (xml : XmlResponse)
    (hm : o.mode = .otp) (he : xml.err = "OK") :
    o.activationStart xml = .ok ({ o with challenge := xml.challenge }, true) := by
  simp [Otp.activationStart, hm, he]

/-- `activationFinalize` in `otp` mode on a non-`OK` response returns `NOK`
without touching the state and without raising. -/
theorem activationFinalize_nok (o : Otp) (aes : String → List Nat → String)
    (rnd : List Nat) (xml : XmlResponse) (x2 : Option XmlResponse)
    (hm : o.mode = .otp) (he : ¬xml.err = "OK") :
    o.activationFinalize aes rnd xml x2 = .ok (o, .NOK, false) := by
  simp [Otp.activationFinalize, hm, he, exceptPure, exceptBind_ok]

/-- **C6 counterexample** — Setup succeeds, but the first Finalize's server
status is `"KO"` (not OK): `getOtpCode` completes normally with a `null`
code instead of raising the "cannot issue OTP" fault. -/
theorem getOtp_nok_completes :
    (Otp.getOtpCode {} (fun _ _ => "") [] { err := "OK", challenge := "ch" }
        { err := "KO" } none {} {}).map (fun r => r.2) = .ok none := by
  decide

/-- **C6 amended** — every error raised during the issuance sequence is
re-raised as the distinct `ConfigException` `"Cannot get otp code: …"`;
however a *first* Finalize whose server status is not OK does not raise:
`activationFinalize` returns `NOK` and `getOtpCode` completes normally,
returning no code (`null`). -/
theorem getOtp_fault_wrapping (o : Otp) (aes : String → List Nat → String)
    (rnd : List Nat) (s1 f1 : XmlResponse) (f1ms : Option XmlResponse)
    (s2 f2 : XmlResponse) :
    (∀ e, o.getOtpCode aes rnd s1 f1 f1ms s2 f2 = .error e →
      ∃ msg, e = .configMsg ("Cannot get otp code: " ++ msg)) ∧
    (s1.err = "OK" → ¬f1.err = "OK" →
      o.getOtpCode aes rnd s1 f1 f1ms s2 f2 =
        .ok ({ o with mode := .otp, challenge := s1.challenge }, none)) := by
  constructor
  · intro e h
    rw [Otp.getOtpCode] at h
    split at h
    · rename_i e' heq
      refine ⟨e'.message, ?_⟩
      injection h with h2
      exact h2.symm
    · simp at h
  · intro hs1 hf1
    rw [Otp.getOtpCode]
    rw [activationStart_otp { o with mode := OtpMode.otp } s1 rfl hs1]
    rw [exceptBind_ok]
    simp only [if_pos rfl]
    rw [activationFinalize_nok { o with mode := OtpMode.otp, challenge := s1.challenge }
      aes rnd f1 f1ms rfl hf1]
    rfl

/-- Witness for C6 at concrete canned responses: a failing Setup is wrapped
into the "Cannot get otp code" fault, and a non-OK first Finalize completes
normally. -/
theorem getOtp_fault_wrapping_witness :
    (∃ msg, (OtpError.configMsg
        ("Cannot get otp code: " ++ xmlToString { err := "X" })) =
      .configMsg ("Cannot get otp code: " ++ msg)) ∧
    Otp.getOtpCode {} (fun _ _ => "") [] { err := "OK", challenge := "ch" }
        { err := "KO" } none {} {} =
      .ok ({ ({} : Otp) with mode := .otp, challenge := "ch" }, none) :=
  ⟨(getOtp_fault_wrapping {} (fun _ _ => "") [] { err := "X" } {} none {} {}).1
      (.configMsg ("Cannot get otp code: " ++ xmlToString { err := "X" })) (by decide),
   (getOtp_fault_wrapping {} (fun _ _ => "") [] { err := "OK", challenge := "ch" }
      { err := "KO" } none {} {}).2 rfl (by decide)⟩

/-! ## C1 — the OTP code extractor -/

/-- A SHA-256 digest has exactly 32 bytes. -/
theorem sha256_length (msg : List Nat) : (sha256 msg).length = 32 := by
  simp [sha256, u32be]

/-- On a list of at least 8 bytes, the two `readUInt32BE` reads are the
big-endian values of the first and second 4-byte words. -/
theorem readUInt32BE_take (l : List Nat) (h : 8 ≤ l.length) :
    readUInt32BE l 0 = bytesToNat (l.take 4) ∧
    readUInt32BE l 4 = bytesToNat ((l.drop 4).take 4) := by
  rcases l with _ | ⟨b0, _ | ⟨b1, _ | ⟨b2, _ | ⟨b3, _ |
    ⟨b4, _ | ⟨b5, _ | ⟨b6, _ | ⟨b7, rest⟩⟩⟩⟩⟩⟩⟩⟩ <;>
    simp_all [readUInt32BE, bytesToNat, List.getD]
  constructor <;> ring

/-- **C1** — `_getOtpCode` computes the SHA-256 digest of
`"{K1}:{defi}:{secondaryValue}"`, takes the first two 32-bit big-endian
words `w0`/`w1`, forms `(w0 &&& 0x0FFFFFFF) * 1024 + (w1 &&& 1023)` and
encodes it in the engine's lower-case base-36; in particular it is a pure
function of `(iwK1, defi, iwsecval)`. -/
theorem getOtpCode_formula (o : Otp) :
    o._getOtpCode = otpCodeSpec o.data.iwK1 o.defi o.data.iwsecval ∧
    (∀ o' : Otp, o'.data.iwK1 = o.data.iwK1 → o'.defi = o.defi →
      o'.data.iwsecval = o.data.iwsecval → o'._getOtpCode = o._getOtpCode) := by
  have main : ∀ g : Otp, g._getOtpCode = otpCodeSpec g.data.iwK1 g.defi g.data.iwsecval := by
    intro g
    have h8 : 8 ≤ (sha256 (utf8 (g.data.iwK1 ++ ":" ++ toString g.defi ++ ":" ++
        g.data.iwsecval))).length := by
      rw [sha256_length]
      omega
    obtain ⟨h1, h2⟩ := readUInt32BE_take _ h8
    simp only [Otp._getOtpCode, otpCodeSpec]
    rw [h1, h2]
  refine ⟨main o, fun o' e1 e2 e3 => ?_⟩
  rw [main o', main o, e1, e2, e3]

/-- Witness for C1's purity clause at a concrete state. -/
theorem getOtpCode_formula_witness :
    ({} : Otp)._getOtpCode = ({} : Otp)._getOtpCode :=
  (getOtpCode_formula {}).2 {} rfl rfl rfl

/-! ## C5 — activation seeds `K0`/`K1` with `Kma` -/

/-- Hex rendering doubles the length. -/
theorem hexChars_length (l : List Nat) : (hexChars l).length = 2 * l.length := by
  induction l with
  | nil => rfl
  | cons b t ih =>
    simp only [hexChars, List.map_cons, List.flatten_cons, List.length_append,
      List.length_cons, List.length_nil] at ih ⊢
    omega

/-- `generateKma` computes the spec's `Kma` formula. -/
theorem generateKma_spec (o : Otp) (pin : String) :
    o.generateKma pin = kmaSpec pin o.device_id o.iwalea := by
  simp [Otp.generateKma, kmaSpec, Otp.getSerial, String.append_assoc]

/-- `generateKma` never returns the empty string (it has 32 characters). -/
theorem generateKma_ne_empty (o : Otp) (pin : String) : o.generateKma pin ≠ "" := by
  simp only [Otp.generateKma]
  intro h
  have hd := congrArg String.data h
  simp only [String.data] at hd
  have hl := congrArg List.length hd
  rw [List.length_take, hexChars_length, sha256_length] at hl
  simp at hl

/-- Fields of the state after a successful `init`. -/
theorem init_fields (o : Otp) (a b c : String) (oi : Otp)
    (h : o.init a b c = .ok oi) :
    oi.codepin = o.codepin ∧ oi.device_id = o.device_id ∧ oi.iwalea = o.iwalea ∧
    oi.mode = o.mode ∧ oi.cipher ≠ none ∧ oi.data = o.data := by
  simp only [Otp.init] at h
  split at h
  · simp at h
  · injection h with h
    subst h
    simp

/-- `activationStart` in `activate` mode on an `OK` response, given a
successful `init`, seeds both keys from `Kma`. -/
theorem activationStart_activate (o : Otp) (xml : XmlResponse) (oi : Otp)
    (hm : o.mode = .activate) (he : xml.err = "OK")
    (hinit : o.init xml.Kfact xml.Kiw xml.pinmode = .ok oi) :
    o.activationStart xml =
      .ok ({ oi with data := { oi.data with
                                 iwK0 := oi.generateKma oi.codepin
                                 iwK1 := oi.generateKma oi.codepin } }, true) := by
  simp [Otp.activationStart, hm, he, hinit]

/-- `activationFinalize` throws when the cipher or PIN is missing in
`activate` mode. -/
theorem activationFinalize_missing (o : Otp) (aes : String → List Nat → String)
    (rnd : List Nat) (xml : XmlResponse) (x2 : Option XmlResponse)
    (hm : o.mode = .activate) (hc : o.cipher = none ∨ o.codepin = "") :
    o.activationFinalize aes rnd xml x2 =
      .error (.jsError "Cipher or codepin not initialized") := by
  simp [Otp.activationFinalize, hm, hc, exceptThrow, exceptBind_error]

/-- `activationFinalize` in `activate` mode with cipher and PIN present, an
`OK` status and no secondary-exchange request: synchronize and return `OK`
with no secondary round. -/
theorem activationFinalize_activate_ok (o : Otp) (aes : String → List Nat → String)
    (rnd : List Nat) (xml : XmlResponse) (x2 : Option XmlResponse)
    (hm : o.mode = .activate) (hc : ¬o.cipher = none) (hp : ¬o.codepin = "")
    (he : xml.err = "OK") (hms : xml.ms_n = 0) :
    o.activationFinalize aes rnd xml x2 =
      .ok ({ o with data := o.data.synchro xml (o.generateKma o.codepin) },
        .OK, false) := by
  simp [Otp.activationFinalize, hm, hc, hp, he, hms, exceptPure, exceptBind_ok]

/-- **C5** — a successful Setup in activate mode derives
`Kma = SHA256(pin ";" deviceId "/_/" salt)[0:32]` and assigns it to both
`K0` and `K1`; a Finalize answering a plain OK with no secondary-exchange
flag leaves `K0 = K1 = Kma`, returns `OK`, and performs no secondary
(synchro) round. -/
theorem activation_seeds_kma (o : Otp) (setupXml finXml : XmlResponse)
    (aes : String → List Nat → String) (rnd : List Nat)
    (hmode : o.mode = .activate) (hsetup : setupXml.err = "OK")
    (hfin : finXml.err = "OK") (hms : finXml.ms_n = 0) :
    ∀ o1 b, o.activationStart setupXml = .ok (o1, b) →
      (o1.data.iwK0 = kmaSpec o.codepin o.device_id o.iwalea ∧
       o1.data.iwK1 = kmaSpec o.codepin o.device_id o.iwalea) ∧
      ∀ o2 r msDone, o1.activationFinalize aes rnd finXml none = .ok (o2, r, msDone) →
        (o2.data.iwK0 = kmaSpec o.codepin o.device_id o.iwalea ∧
         o2.data.iwK1 = kmaSpec o.codepin o.device_id o.iwalea) ∧
        r = .OK ∧ msDone = false := by
  intro o1 b hstart
  rcases hinit : o.init setupXml.Kfact setupXml.Kiw setupXml.pinmode with e | oi
  · have hfail : o.activationStart setupXml = .error e := by
      simp [Otp.activationStart, hmode, hsetup, hinit]
    rw [hfail] at hstart
    exact absurd hstart (by simp)
  · rw [activationStart_activate o setupXml oi hmode hsetup hinit] at hstart
    simp only [Except.ok.injEq, Prod.mk.injEq] at hstart
    obtain ⟨ho1, hb⟩ := hstart
    obtain ⟨f1, f2, f3, f4, f5, _⟩ := init_fields o _ _ _ oi hinit
    have hkma : oi.generateKma oi.codepin = kmaSpec o.codepin o.device_id o.iwalea := by
      rw [generateKma_spec, f1, f2, f3]
    have hK0 : o1.data.iwK0 = kmaSpec o.codepin o.device_id o.iwalea := by
      rw [← ho1]
      simpa using hkma
    have hK1 : o1.data.iwK1 = kmaSpec o.codepin o.device_id o.iwalea := by
      rw [← ho1]
      simpa using hkma
    have hne0 : o1.data.iwK0 ≠ "" := by
      rw [hK0, ← hkma]
      exact generateKma_ne_empty oi oi.codepin
    have hne1 : o1.data.iwK1 ≠ "" := by
      rw [hK1, ← hkma]
      exact generateKma_ne_empty oi oi.codepin
    refine ⟨⟨hK0, hK1⟩, ?_⟩
    intro o2 r msDone hfin2
    have hm1 : o1.mode = .activate := by
      rw [← ho1]
      simpa using f4.trans hmode
    by_cases hcp : o1.cipher = none ∨ o1.codepin = ""
    · rw [activationFinalize_missing o1 aes rnd finXml none hm1 hcp] at hfin2
      exact absurd hfin2 (by simp)
    · push_neg at hcp
      rw [activationFinalize_activate_ok o1 aes rnd finXml none hm1 hcp.1 hcp.2
        hfin hms] at hfin2
      simp only [Except.ok.injEq, Prod.mk.injEq] at hfin2
      obtain ⟨ho2, hr, hmd⟩ := hfin2
      refine ⟨⟨?_, ?_⟩, hr.symm, hmd.symm⟩
      · rw [← ho2]
        show (o1.data.synchro finXml (o1.generateKma o1.codepin)).iwK0 = _
        rw [IWData.synchro_iwK0_of_ne _ _ _ hne0, hK0]
      · rw [← ho2]
        show (o1.data.synchro finXml (o1.generateKma o1.codepin)).iwK1 = _
        rw [IWData.synchro_iwK1_of_ne _ _ _ hne1, hK1]

set_option maxRecDepth 10000 in
/-- Witness for C5 at the concrete activation scenario. -/
theorem activation_seeds_kma_witness :
    ∃ b r msDone,
      otpScenario.activationStart { err := "OK", Kfact := "ab", Kiw := "", pinmode := "1" } =
        .ok (otpScenarioDone, b) ∧
      otpScenarioDone.activationFinalize (fun _ _ => "") [] { err := "OK" } none =
        .ok (otpScenarioDone, r, msDone) ∧
      (otpScenarioDone.data.iwK0 = kmaSpec "5678" "dev" "a1" ∧
       otpScenarioDone.data.iwK1 = kmaSpec "5678" "dev" "a1") ∧
      r = .OK ∧ msDone = false := by
  have hstart : otpScenario.activationStart
      { err := "OK", Kfact := "ab", Kiw := "", pinmode := "1" } =
      .ok (otpScenarioDone, true) := by decide
  have hfin : otpScenarioDone.activationFinalize (fun _ _ => "") [] { err := "OK" } none =
      .ok (otpScenarioDone, .OK, false) := by decide
  obtain ⟨hK, H2⟩ := activation_seeds_kma otpScenario
    { err := "OK", Kfact := "ab", Kiw := "", pinmode := "1" } { err := "OK" }
    (fun _ _ => "") [] rfl rfl rfl rfl otpScenarioDone true hstart
  exact ⟨true, .OK, false, hstart, hfin, hK, (H2 otpScenarioDone .OK false hfin).2⟩

/-! ## C7 — block-by-block OAEP decryption -/

theorem chunksAux_nil (k : Nat) : ∀ fuel, chunksAux k fuel ([] : List α) = [] := by
  intro fuel
  cases fuel <;> simp [chunksAux]

/-- `chunksAux` is fuel-invariant once the fuel covers the list length. -/
theorem chunksAux_eq (k : Nat) (hk : 0 < k) :
    ∀ fuel (l : List α), l.length ≤ fuel → chunksAux k fuel l = chunks k l := by
  intro fuel
  induction fuel using Nat.strong_induction_on with
  | _ fuel ih =>
    intro l hl
    match fuel, l with
    | fuel, [] => rw [chunksAux_nil, chunks, List.length_nil, chunksAux_nil]
    | 0, a :: t => simp at hl
    | fuel + 1, a :: t =>
      have hlen : t.length ≤ fuel := by simpa using hl
      rw [chunksAux, if_neg (by simp)]
      have h1 : chunks k (a :: t) =
          (a :: t).take k :: chunksAux k t.length ((a :: t).drop k) := by
        rw [chunks, List.length_cons, chunksAux, if_neg (by simp)]
      rw [h1]
      congr 1
      have hd : ((a :: t).drop k).length ≤ t.length := by
        rw [List.length_drop, List.length_cons]
        omega
      rw [ih fuel (Nat.lt_succ_self fuel) _ (le_trans hd hlen),
        ih t.length (Nat.lt_succ_of_le hlen) _ hd]

/-- Unfolding step for `chunks` on a non-empty list. -/
theorem chunks_cons (k : Nat) (hk : 0 < k) (l : List α) (hl : l ≠ []) :
    chunks k l = l.take k :: chunks k (l.drop k) := by
  rcases l with _ | ⟨a, t⟩
  · exact absurd rfl hl
  · rw [chunks, List.length_cons, chunksAux, if_neg (by simp)]
    congr 1
    refine chunksAux_eq k hk t.length _ ?_
    rw [List.length_drop, List.length_cons]
    omega

theorem stringFoldl_append (l : List String) :
    ∀ x y : String, l.foldl (· ++ ·) (x ++ y) = x ++ l.foldl (· ++ ·) y := by
  induction l with
  | nil => intro x y; rfl
  | cons s t ih =>
    intro x y
    simp only [List.foldl_cons]
    rw [String.append_assoc, ih]

theorem stringJoin_cons (a : String) (l : List String) :
    String.join (a :: l) = a ++ String.join l := by
  show l.foldl (· ++ ·) ("" ++ a) = a ++ l.foldl (· ++ ·) ""
  have h := stringFoldl_append l a ""
  rw [String.append_empty] at h
  rw [String.empty_append]
  exact h

/-- The loop of `decodeOaep` computes, from block `x` on, the chunked
map-decrypt-concatenate of the spec. -/
theorem decodeOaepGo_spec (buf : List Nat) (M E : Nat) :
    ∀ fuel x, (buf.length + 128 - 1) / 128 ≤ x + fuel →
      decodeOaepGo buf M E ((buf.length + 128 - 1) / 128) fuel x =
        ((chunks 128 (buf.drop (x * 128))).mapM fun b => oaepDecrypt b M E []).map
          fun ds => String.join (ds.map bytesToHex) := by
  intro fuel
  induction fuel with
  | zero =>
    intro x hx
    have hdrop : buf.drop (x * 128) = [] := List.drop_eq_nil_of_le (by omega)
    rw [decodeOaepGo, hdrop, chunks, List.length_nil, chunksAux_nil, List.mapM_nil]
    rfl
  | succ fuel ih =>
    intro x hx
    by_cases hlt : x < (buf.length + 128 - 1) / 128
    · have hxlen : x * 128 < buf.length := by omega
      have hne : buf.drop (x * 128) ≠ [] := by
        intro hnil
        have := congrArg List.length hnil
        rw [List.length_drop] at this
        simp at this
        omega
      rw [decodeOaepGo, if_pos hlt]
      dsimp only
      have hblock :
          ((buf.drop (x * 128)).take
            ((if x = (buf.length + 128 - 1) / 128 - 1 then buf.length
              else (x + 1) * 128) - x * 128)) = (buf.drop (x * 128)).take 128 := by
        by_cases hlast : x = (buf.length + 128 - 1) / 128 - 1
        · rw [if_pos hlast]
          have hlen2 : buf.length ≤ (x + 1) * 128 := by omega
          have hrem : (buf.drop (x * 128)).length = buf.length - x * 128 :=
            List.length_drop _ _
          rw [List.take_of_length_le (by omega), List.take_of_length_le (by omega)]
        · rw [if_neg hlast]
          congr 1
          omega
      rw [hblock, chunks_cons 128 (by norm_num) _ hne, List.drop_drop, List.mapM_cons]
      have harith : x * 128 + 128 = (x + 1) * 128 := by ring
      rw [harith]
      have ihx := ih (x + 1) (by omega)
      rw [ihx]
      cases hdec : oaepDecrypt ((buf.drop (x * 128)).take 128) M E [] with
      | error e =>
        simp [hdec, exceptBind_error, Except.map]
      | ok dec =>
        cases hrest : (chunks 128 (buf.drop ((x + 1) * 128))).mapM
            (fun b => oaepDecrypt b M E []) with
        | error e =>
          simp [hdec, hrest, exceptBind_ok, exceptBind_error, Except.map]
        | ok ds =>
          simp [hdec, hrest, exceptBind_ok, exceptPure, Except.map, stringJoin_cons]
    · rw [decodeOaepGo, if_neg hlt]
      have hdrop : buf.drop (x * 128) = [] := List.drop_eq_nil_of_le (by omega)
      rw [hdrop, chunks, List.length_nil, chunksAux_nil, List.mapM_nil]
      rfl

/-- **C7** — `decodeOaep` splits the hex-decoded ciphertext into consecutive
128-byte blocks (final block possibly shorter), decrypts each block with
the single-block `oaepDecrypt` under exponent 17, and concatenates the
recovered payloads in block order. -/
theorem decodeOaep_blocks (enc key : String) :
    decodeOaep enc key = decodeOaepSpec enc key := by
  simp only [decodeOaep, decodeOaepSpec]
  have h := decodeOaepGo_spec (hexToBytes enc.data) (parseHexNat key) EXPONENT
    (((hexToBytes enc.data).length + 128 - 1) / 128) 0 (by omega)
  rw [List.drop_zero] at h
  exact h

/-! ## C3 — OAEP round trip -/

theorem bitLenAux_lt : ∀ fuel n, n ≤ fuel → n < 2 ^ bitLenAux fuel n := by
  intro fuel
  induction fuel with
  | zero =>
    intro n hn
    have : n = 0 := Nat.le_zero.mp hn
    subst this
    simp [bitLenAux]
  | succ fuel ih =>
    intro n hn
    rw [bitLenAux]
    by_cases h0 : n = 0
    · subst h0
      simp
    · rw [if_neg h0]
      have hh : n / 2 ≤ fuel := by
        have := Nat.div_lt_self (Nat.pos_of_ne_zero h0) (by norm_num : (1:Nat) < 2)
        omega
      have := ih (n / 2) hh
      have h2 : 2 ^ (bitLenAux fuel (n / 2) + 1) = 2 * 2 ^ bitLenAux fuel (n / 2) := by
        rw [Nat.pow_succ]
        ring
      omega

/-- `n < 2 ^ bitLen n`. -/
theorem lt_two_pow_bitLen (n : Nat) : n < 2 ^ bitLen n := bitLenAux_lt n n le_rfl

/-- A number is below `256 ^ k` for its OAEP block size `k`. -/
theorem lt_256_pow_rsaLen (n : Nat) : n < 256 ^ ((bitLen n + 7) / 8) := by
  have h1 := lt_two_pow_bitLen n
  have h2 : bitLen n ≤ 8 * ((bitLen n + 7) / 8) := by omega
  calc n < 2 ^ bitLen n := h1
    _ ≤ 2 ^ (8 * ((bitLen n + 7) / 8)) := Nat.pow_le_pow_right (by norm_num) h2
    _ = 256 ^ ((bitLen n + 7) / 8) := by rw [Nat.pow_mul]

theorem modPowAux_lt (n : Nat) (hn : 0 < n) :
    ∀ fuel b e, modPowAux fuel b e n < n := by
  intro fuel
  induction fuel with
  | zero => intro b e; exact Nat.mod_lt 1 hn
  | succ fuel ih =>
    intro b e
    rw [modPowAux]
    split_ifs
    · exact Nat.mod_lt 1 hn
    · exact Nat.mod_lt _ hn
    · exact ih _ _

/-- `modPow` reduces below a positive modulus. -/
theorem modPow_lt (b e n : Nat) (hn : 0 < n) : modPow b e n < n :=
  modPowAux_lt n hn e b e

theorem foldl_byte_bound :
    ∀ (l : List Nat) (a : Nat), (∀ x ∈ l, x < 256) →
      l.foldl (fun acc b => 256 * acc + b) a < 256 ^ l.length * (a + 1) := by
  intro l
  induction l with
  | nil =>
    intro a _
    simp

  | cons b t ih =>
    intro a h
    have hb : b < 256 := h b (by simp)
    have ht : ∀ x ∈ t, x < 256 := fun x hx => h x (by simp [hx])
    have h1 := ih (256 * a + b) ht
    have h2 : 256 ^ t.length * (256 * a + b + 1) ≤ 256 ^ (t.length + 1) * (a + 1) := by
      rw [Nat.pow_succ]
      have : 256 * a + b + 1 ≤ 256 * (a + 1) := by omega
      calc 256 ^ t.length * (256 * a + b + 1) ≤ 256 ^ t.length * (256 * (a + 1)) :=
        Nat.mul_le_mul_left _ this
        _ = 256 ^ t.length * 256 * (a + 1) := by ring
    simp only [List.foldl_cons, List.length_cons]
    exact lt_of_lt_of_le h1 h2

/-- A byte list denotes a number below `256 ^ length`. -/
theorem bytesToNat_lt (l : List Nat) (h : ∀ x ∈ l, x < 256) :
    bytesToNat l < 256 ^ l.length := by
  have := foldl_byte_bound l 0 h
  simpa [bytesToNat] using this

theorem natToBytesPadded_length : ∀ k n, (natToBytesPadded k n).length = k := by
  intro k
  induction k with
  | zero => intro n; rfl
  | succ k ih =>
    intro n
    rw [natToBytesPadded]
    simp [ih]

theorem natToBytesPadded_mem_lt : ∀ k n, ∀ x ∈ natToBytesPadded k n, x < 256 := by
  intro k
  induction k with
  | zero => intro n x hx; simp [natToBytesPadded] at hx
  | succ k ih =>
    intro n x hx
    rw [natToBytesPadded] at hx
    rcases List.mem_append.mp hx with h | h
    · exact ih _ x h
    · have : x = n % 256 := by simpa using h
      subst this
      exact Nat.mod_lt _ (by norm_num)

theorem bytesToNat_append_singleton (l : List Nat) (b : Nat) :
    bytesToNat (l ++ [b]) = 256 * bytesToNat l + b := by
  simp [bytesToNat, List.foldl_append]

/-- Serializing then reading back gives the number modulo `256 ^ k`. -/
theorem bytesToNat_natToBytesPadded : ∀ k n, bytesToNat (natToBytesPadded k n) = n % 256 ^ k := by
  intro k
  induction k with
  | zero =>
    intro n
    simp [natToBytesPadded, bytesToNat, Nat.mod_one]
  | succ k ih =>
    intro n
    rw [natToBytesPadded, bytesToNat_append_singleton, ih,
      show (256:Nat) ^ (k + 1) = 256 * 256 ^ k by ring, Nat.mod_mul]
    ring

/-- Reading a `k`-byte list and re-serializing reproduces it. -/
theorem natToBytesPadded_bytesToNat :
    ∀ l : List Nat, (∀ x ∈ l, x < 256) → natToBytesPadded l.length (bytesToNat l) = l := by
  intro l
  induction l using List.reverseRecOn with
  | nil => intro h; rfl
  | append_singleton t b ih =>
    intro h
    have hb : b < 256 := h b (by simp)
    have ht : ∀ x ∈ t, x < 256 := fun x hx => h x (by simp [hx])
    rw [bytesToNat_append_singleton,
      show (t ++ [b]).length = t.length + 1 by simp, natToBytesPadded,
      show (256 * bytesToNat t + b) / 256 = bytesToNat t by omega,
      show (256 * bytesToNat t + b) % 256 = b by omega, ih ht]

theorem xorBuffers_length (a b : List Nat) : (xorBuffers a b).length = a.length := by
  simp [xorBuffers]

theorem rangeMap_getD (l : List α) (d : α) :
    (List.range l.length).map (fun i => l.getD i d) = l := by
  induction l with
  | nil => rfl
  | cons a t ih =>
    have hstep : (List.range (t.length + 1)).map (fun i => (a :: t).getD i d) =
        (a :: t).getD 0 d :: (List.range t.length).map fun i => (a :: t).getD (i + 1) d := by
      rw [List.range_succ_eq_map, List.map_cons, List.map_map]
      rfl
    rw [List.length_cons, hstep]
    simp only [List.getD_cons_zero, List.getD_cons_succ]
    rw [ih]

theorem getD_lt_of_mem_lt (l : List Nat) (h : ∀ x ∈ l, x < 256) (i : Nat) :
    l.getD i 0 < 256 := by
  by_cases hi : i < l.length
  · rw [List.getD_eq_getElem l 0 hi]
    exact h _ (List.getElem_mem hi)
  · rw [List.getD_eq_default l 0 (by omega)]
    norm_num

theorem xorBuffers_getD (a b : List Nat) (i : Nat) (h : i < a.length) :
    (xorBuffers a b).getD i 0 = (a.getD i 0) ^^^ (b.getD i 0) := by
  have hlen : i < ((List.range a.length).map
      fun j => (a.getD j 0) ^^^ (b.getD j 0)).length := by
    simpa using h
  rw [xorBuffers, List.getD_eq_getElem _ 0 hlen, List.getElem_map]
  simp

/-- XOR-masking twice with the same mask is the identity. -/
theorem xorBuffers_cancel (a b : List Nat) : xorBuffers (xorBuffers a b) b = a := by
  have h1 : xorBuffers (xorBuffers a b) b =
      (List.range a.length).map fun i => ((xorBuffers a b).getD i 0) ^^^ (b.getD i 0) := by
    rw [xorBuffers, xorBuffers_length]
  rw [h1]
  have h2 : ∀ i ∈ List.range a.length,
      ((xorBuffers a b).getD i 0) ^^^ (b.getD i 0) = a.getD i 0 := by
    intro i hi
    rw [xorBuffers_getD a b i (by simpa using hi), Nat.xor_cancel_right]
  rw [List.map_congr_left h2, rangeMap_getD]

theorem xorBuffers_mem_lt (a b : List Nat) (ha : ∀ x ∈ a, x < 256)
    (hb : ∀ x ∈ b, x < 256) : ∀ x ∈ xorBuffers a b, x < 256 := by
  intro x hx
  rw [xorBuffers] at hx
  obtain ⟨i, hi, rfl⟩ := List.mem_map.mp hx
  have h1 : a.getD i 0 < 2 ^ 8 := getD_lt_of_mem_lt a ha i
  have h2 : b.getD i 0 < 2 ^ 8 := getD_lt_of_mem_lt b hb i
  exact Nat.xor_lt_two_pow h1 h2

theorem u32be_mem_lt (x : Nat) : ∀ b ∈ u32be x, b < 256 := by
  intro b hb
  simp only [u32be, List.mem_cons, List.not_mem_nil, or_false] at hb
  rcases hb with rfl | rfl | rfl | rfl <;> exact Nat.lt_succ_of_le Nat.and_le_right

theorem sha256_mem_lt (msg : List Nat) : ∀ b ∈ sha256 msg, b < 256 := by
  intro b hb
  simp only [sha256, List.mem_append] at hb
  rcases hb with ((((((h | h) | h) | h) | h) | h) | h) | h <;> exact u32be_mem_lt _ b h

theorem mgf1_length (s : List Nat) (len : Nat) : (mgf1 s len).length = len := by
  rw [mgf1]
  rw [List.length_take]
  have hflat : (((List.range ((len + 32 - 1) / 32)).map
      fun i => sha256 (s ++ u32be i)).flatten).length = ((len + 32 - 1) / 32) * 32 := by
    rw [List.length_flatten, List.map_map]
    have : (List.range ((len + 32 - 1) / 32)).map (List.length ∘ fun i => sha256 (s ++ u32be i)) =
        (List.range ((len + 32 - 1) / 32)).map fun _ => 32 := by
      refine List.map_congr_left fun i _ => ?_
      simp [sha256_length]
    rw [this]
    simp [List.map_const', List.sum_replicate]
  rw [hflat]
  omega

theorem mgf1_mem_lt (s : List Nat) (len : Nat) : ∀ x ∈ mgf1 s len, x < 256 := by
  intro x hx
  rw [mgf1] at hx
  have hx2 := List.mem_of_mem_take hx
  obtain ⟨l', hl', hxl⟩ := List.mem_flatten.mp hx2
  obtain ⟨i, _, rfl⟩ := List.mem_map.mp hl'
  exact sha256_mem_lt _ x hxl

/-- `findIdx?` locates the `0x01` separator right after the zero padding. -/
theorem findIdx_sep (m : List Nat) :
    ∀ p i, (List.replicate p 0 ++ 1 :: m).findIdx? (fun b => b = 1) i = some (i + p) := by
  intro p
  induction p with
  | zero =>
    intro i
    simp [List.findIdx?_cons]
  | succ p ih =>
    intro i
    rw [List.replicate_succ, List.cons_append, List.findIdx?_cons]
    simp only [decide_eq_true_eq]
    rw [if_neg (by norm_num), ih (i + 1)]
    congr 1
    omega

theorem take32_left (l1 l2 : List Nat) (h : l1.length = 32) : (l1 ++ l2).take 32 = l1 := by
  rw [← h]
  exact List.take_left _ _

theorem drop32_left (l1 l2 : List Nat) (h : l1.length = 32) : (l1 ++ l2).drop 32 = l2 := by
  rw [← h]
  exact List.drop_left _ _

set_option maxHeartbeats 3200000 in
/-- Decrypting any ciphertext whose RSA step recovers the OAEP-encoded
block returns the original payload: the unpadding inverts the masking. -/
theorem oaepDecrypt_encode (m seed : List Nat) (n e k : Nat)
    (hkeq : k = (bitLen n + 7) / 8)
    (hk : 66 ≤ k) (hm : m.length + 66 ≤ k)
    (hmB : ∀ b ∈ m, b < 256) (hseedLen : seed.length = 32)
    (hseedB : ∀ b ∈ seed, b < 256)
    (ct : List Nat) (hct : ct.length = k)
    (hdec : modPow (bytesToNat ct) e n = bytesToNat (oaepEncode m k seed)) :
    oaepDecrypt ct n e [] = .ok m := by
  set lHash := sha256 ([] : List Nat) with hlH
  set ps := List.replicate (k - m.length - 2 * 32 - 2) 0 with hps
  set db := lHash ++ ps ++ [1] ++ m with hdbdef
  set dbMask := mgf1 seed (k - 32 - 1) with hdbM
  set maskedDb := xorBuffers db dbMask with hmDb
  set seedMask := mgf1 maskedDb 32 with hsM
  set maskedSeed := xorBuffers seed seedMask with hmS
  have hencode : oaepEncode m k seed = 0 :: (maskedSeed ++ maskedDb) := rfl
  have hlHlen : lHash.length = 32 := sha256_length []
  have hpslen : ps.length = k - m.length - 2 * 32 - 2 := List.length_replicate _ _
  have hdbLen : db.length = k - 33 := by
    rw [hdbdef]
    simp only [List.length_append, List.length_cons, List.length_nil, hlHlen, hpslen]
    omega
  have hmDbLen : maskedDb.length = k - 33 := by
    rw [hmDb, xorBuffers_length, hdbLen]
  have hmSLen : maskedSeed.length = 32 := by
    rw [hmS, xorBuffers_length, hseedLen]
  have hemLen : (oaepEncode m k seed).length = k := by
    rw [hencode]
    simp only [List.length_cons, List.length_append, hmSLen, hmDbLen]
    omega
  have hdbB : ∀ x ∈ db, x < 256 := by
    intro x hx
    rw [hdbdef] at hx
    simp only [List.append_assoc, List.mem_append, List.singleton_append,
      List.mem_cons] at hx
    rcases hx with h | h | rfl | h
    · exact sha256_mem_lt [] x h
    · rw [List.eq_of_mem_replicate h]
      norm_num
    · norm_num
    · exact hmB x h
  have hmDbB : ∀ x ∈ maskedDb, x < 256 := by
    rw [hmDb]
    exact xorBuffers_mem_lt db dbMask hdbB (mgf1_mem_lt _ _)
  have hmSB : ∀ x ∈ maskedSeed, x < 256 := by
    rw [hmS]
    exact xorBuffers_mem_lt seed seedMask hseedB (mgf1_mem_lt _ _)
  have hemB : ∀ x ∈ oaepEncode m k seed, x < 256 := by
    rw [hencode]
    intro x hx
    rcases List.mem_cons.mp hx with rfl | hx2
    · norm_num
    · rcases List.mem_append.mp hx2 with h | h
      · exact hmSB x h
      · exact hmDbB x h
  have hpadL := natToBytesPadded_bytesToNat (oaepEncode m k seed) hemB
  rw [hemLen] at hpadL
  simp only [oaepDecrypt]
  rw [← hkeq, if_neg (by simp [hct]), hdec, hpadL, hencode]
  have e1 : ((0 :: (maskedSeed ++ maskedDb)).drop 1).take 32 = maskedSeed := by
    rw [show (0 :: (maskedSeed ++ maskedDb)).drop 1 = maskedSeed ++ maskedDb from rfl]
    exact take32_left _ _ hmSLen
  have e2 : (0 :: (maskedSeed ++ maskedDb)).drop (32 + 1) = maskedDb := by
    rw [List.drop_succ_cons]
    exact drop32_left _ _ hmSLen
  rw [e1, e2, ← hsM]
  have e3 : xorBuffers maskedSeed seedMask = seed := by
    rw [hmS]
    exact xorBuffers_cancel seed seedMask
  rw [e3, ← hdbM]
  have e4 : xorBuffers maskedDb dbMask = db := by
    rw [hmDb]
    exact xorBuffers_cancel db dbMask
  rw [e4]
  have e5 : db.drop 32 = ps ++ 1 :: m := by
    rw [hdbdef, List.append_assoc, List.append_assoc,
      drop32_left _ _ hlHlen, List.singleton_append]
  rw [e5]
  have e6 : (ps ++ 1 :: m).findIdx? (fun b => b = 1) =
      some (k - m.length - 2 * 32 - 2) := by
    rw [hps]
    have hf := findIdx_sep m (k - m.length - 2 * 32 - 2) 0
    rw [Nat.zero_add] at hf
    exact hf
  rw [e6]
  show Except.ok (db.drop (32 + (k - m.length - 2 * 32 - 2) + 1)) = Except.ok m
  have e7 : db.drop (32 + (k - m.length - 2 * 32 - 2) + 1) = m := by
    rw [hdbdef, List.append_assoc, List.append_assoc,
      show 32 + (k - m.length - 2 * 32 - 2) + 1 =
        lHash.length + ((k - m.length - 2 * 32 - 2) + 1) by rw [hlHlen]; omega,
      List.drop_append,
      show k - m.length - 2 * 32 - 2 + 1 = ps.length + 1 by rw [hpslen],
      List.drop_append, List.singleton_append, List.drop_succ_cons, List.drop_zero]
  rw [e7]

set_option maxRecDepth 1000000 in
/-- **C3 counterexample** — with the repository's fixed public exponent 17
used on both sides (as the claim states), the round trip fails at a
concrete modulus, message and seed: the decryption does not return the
plaintext (modular exponentiation by 17 twice is not the identity). -/
theorem oaep_same_exponent_fails :
    ((oaepEncrypt rsaMsg rsaN EXPONENT rsaSeed).bind
        fun c => oaepDecrypt c rsaN EXPONENT []) ≠ .ok rsaMsg := by
  decide

/-- **C3 amended** — OAEP decryption with exponent `e` inverts OAEP
encryption performed with an exponent `d` whose modular exponentiation `e`
inverts (as the server's private exponent does for the client's public
exponent 17); with the *same* exponent on both sides the round trip does
not hold in general. -/
theorem oaep_roundTrip (m seed : List Nat) (n d e : Nat) (hn : 0 < n)
    (hk : 66 ≤ (bitLen n + 7) / 8)
    (hm : m.length + 66 ≤ (bitLen n + 7) / 8)
    (hmB : ∀ b ∈ m, b < 256)
    (hseedLen : seed.length = 32)
    (hseedB : ∀ b ∈ seed, b < 256)
    (hrsa : modPow (modPow (bytesToNat (oaepEncode m ((bitLen n + 7) / 8) seed)) d n) e n =
      bytesToNat (oaepEncode m ((bitLen n + 7) / 8) seed)) :
    ((oaepEncrypt m n d seed).bind fun c => oaepDecrypt c n e []) = .ok m := by
  have henc : oaepEncrypt m n d seed =
      .ok (natToBytesPadded ((bitLen n + 7) / 8)
        (modPow (bytesToNat (oaepEncode m ((bitLen n + 7) / 8) seed)) d n)) := by
    simp only [oaepEncrypt]
    rw [if_neg (by omega), if_neg (by omega)]
  rw [henc, exceptDotBind_ok]
  refine oaepDecrypt_encode m seed n e _ rfl hk hm hmB hseedLen hseedB _
    (natToBytesPadded_length _ _) ?_
  rw [bytesToNat_natToBytesPadded,
    Nat.mod_eq_of_lt (Nat.lt_trans (modPow_lt _ _ _ hn) (lt_256_pow_rsaLen n))]
  exact hrsa

set_option maxRecDepth 1000000 in
/-- Witness for C3's amended round trip at the concrete 536-bit prime
modulus, with `rsaD` the inverse exponent of 17. -/
theorem oaep_roundTrip_witness :
    ((oaepEncrypt rsaMsg rsaN rsaD rsaSeed).bind
        fun c => oaepDecrypt c rsaN EXPONENT []) = .ok rsaMsg :=
  oaep_roundTrip rsaMsg rsaSeed rsaN rsaD EXPONENT (by decide) (by decide) (by decide)
    (by decide) (by decide) (by decide)
    (by
      rw [(by decide : bytesToNat (oaepEncode rsaMsg ((bitLen rsaN + 7) / 8) rsaSeed) =
        116200885696349362744264616201592292425562778196582524130382898696248449814145202501879572594217938040438393582360728741104460769027667232173499640377498469645)]
      decide)

end Stellantis
